import Mathlib

/-
Shallow embedding of `src/transcribe_videos.py`, a single-file YouTube
ingestion pipeline: search pagination, per-video transcript fetching with
language detection, batched statistics fetching, transcript backfill with
checkpoint saves, CSV persistence with a backup path, and the `main`
orchestration.  External services (the search/statistics API, the transcript
API, the language detector, the filesystem) are passed in as explicit
function parameters; raised exceptions of those collaborators are modelled
with `Except` / outcome types.  All line numbers below refer to
`src/transcribe_videos.py`.
-/

namespace TranscribeVideos

/-- One raw search result entry as the script consumes it: the identifier
`v['id']['videoId']` (lines 130, 185, 196) together with the `snippet` fields
read when assembling a record (lines 203-210). -/
structure SearchEntry where
  videoId : String
  title : String
  description : String
  publishedAt : String
  regionCode : Option String
  deriving Repr, DecidableEq

/-- One response observed by the loop body of `search_youtube_videos`
(lines 115-154): either a successful page (its items and the optional
`nextPageToken`, lines 127, 136), or an `HttpError` with status 403
(quota exceeded, lines 144-147), or any other error (lines 148-154), which
the code logs, sleeps on, and retries past. -/
inductive SearchResponse where
  | page (items : List SearchEntry) (nextPageToken : Option String)
  | quotaError
  | otherError
  deriving Repr, DecidableEq

/-- The items of a page response; error responses carry no items. -/
def SearchResponse.pageItems : SearchResponse → List SearchEntry
  | SearchResponse.page items _ => items
  | _ => []

/-- `search_youtube_videos` (lines 109-156).  The successive responses of the
endpoint are given as a list.  For a page, the entries whose `videoId` is
already in `existing_video_ids` are discarded and the rest accumulated
(lines 129-131); the walk ends when a page has no continuation token
(lines 136-139).  A quota error breaks out of the loop, returning what was
accumulated so far (lines 144-147); any other error is retried, i.e. the walk
goes on with the next response (lines 148-154). -/
def search_youtube_videos (existing_video_ids : List String) :
    List SearchResponse → List SearchEntry
  | [] => []
  | SearchResponse.page items tok :: rest =>
    (match tok with
     | none => items.filter (fun v => !(existing_video_ids.contains v.videoId))
     | some _ =>
         items.filter (fun v => !(existing_video_ids.contains v.videoId)) ++
           search_youtube_videos existing_video_ids rest)
  | SearchResponse.quotaError :: _ => []
  | SearchResponse.otherError :: rest => search_youtube_videos existing_video_ids rest

/-- The sequence of pages actually returned by the search endpoint during the
walk: every successful page up to and including the first page without a
continuation token; a quota error ends the walk, and an error response
contributes no page. -/
def returnedPages : List SearchResponse → List (List SearchEntry)
  | [] => []
  | SearchResponse.page items tok :: rest =>
    (match tok with
     | none => [items]
     | some _ => items :: returnedPages rest)
  | SearchResponse.quotaError :: _ => []
  | SearchResponse.otherError :: rest => returnedPages rest

/-- One caption segment returned by the transcript service: the `'text'`
field read on line 165. -/
structure CaptionItem where
  text : String
  deriving Repr, DecidableEq

/-- `' '.join([item['text'] for item in transcript_list])` (line 165). -/
def fullTranscript (transcript_list : List CaptionItem) : String :=
  String.intercalate (" ") (transcript_list.map CaptionItem.text)

/-- `get_transcript_and_language` (lines 158-177).  The transcript service
(`YouTubeTranscriptApi.get_transcript`) and the language detector
(`langdetect.detect`) are parameters; `Except.error` models a raised
exception.  A falsy (empty) id returns the sentinel immediately
(lines 160-161); a failed transcript request returns the sentinel
(lines 175-177); a failed detection falls back to `"unknown"`
(lines 168-171).  The function is total: no failure of either collaborator
propagates to the caller. -/
def get_transcript_and_language (video_id : String)
    (getTranscript : String → Except String (List CaptionItem))
    (detect_language : String → Except String String) : String × String :=
  if video_id = "" then ("Video Error", "unknown")
  else
    match getTranscript video_id with
    | Except.error _ => ("Video Error", "unknown")
    | Except.ok transcript_list =>
      match detect_language (fullTranscript transcript_list) with
      | Except.error _ => (fullTranscript transcript_list, "unknown")
      | Except.ok language => (fullTranscript transcript_list, language)

/-- C1: the entries returned by the search paginator are exactly the
concatenation of the pages returned by the endpoint, filtered to exclude
every entry whose video identifier is among the existing ids; consequently
no identifier already present in the table occurs among the accumulated new
entries. -/
theorem search_new_records_filter (K : List String)
    (responses : List SearchResponse) :
    search_youtube_videos K responses =
      ((returnedPages responses).flatten).filter (fun v => !(K.contains v.videoId)) ∧
    ∀ v ∈ search_youtube_videos K responses, K.contains v.videoId = false := by
  have hmain : search_youtube_videos K responses =
      ((returnedPages responses).flatten).filter (fun v => !(K.contains v.videoId)) := by
    induction responses with
    | nil => rfl
    | cons r rest ih =>
      cases r with
      | page items tok =>
        cases tok with
        | none => simp [search_youtube_videos, returnedPages]
        | some t =>
          simp [search_youtube_videos, returnedPages, List.filter_append, ih]
      | quotaError => rfl
      | otherError =>
        simpa [search_youtube_videos, returnedPages] using ih
  refine ⟨hmain, ?_⟩
  intro v hv
  rw [hmain] at hv
  have hp := List.of_mem_filter hv
  simpa using hp

/-- Witness for C1 at a concrete input: one page containing one known and one
new entry; the paginator keeps exactly the new one. -/
theorem search_new_records_filter_witness :
    search_youtube_videos ["k"]
        [SearchResponse.page
          [⟨"k", "tk", "dk", "pk", none⟩, ⟨"n", "tn", "dn", "pn", none⟩] none] =
      ((returnedPages
          [SearchResponse.page
            [⟨"k", "tk", "dk", "pk", none⟩, ⟨"n", "tn", "dn", "pn", none⟩] none]).flatten).filter
        (fun v => !(["k"].contains v.videoId)) ∧
    (["k"] : List String).contains (("n" : String)) = false := by
  have h := search_new_records_filter ["k"]
    [SearchResponse.page
      [⟨"k", "tk", "dk", "pk", none⟩, ⟨"n", "tn", "dn", "pn", none⟩] none]
  refine ⟨h.1, ?_⟩
  have hv := h.2 ⟨"n", "tn", "dn", "pn", none⟩ (by decide)
  exact hv

/-- C2: a failed transcript request yields exactly the sentinel pair
`("Video Error", "unknown")` (the function is total, so the failure never
propagates), and a successful retrieval whose language detection fails
yields the concatenated transcript paired with `"unknown"`. -/
theorem transcript_failure_sentinel (video_id : String)
    (getTranscript : String → Except String (List CaptionItem))
    (detect_language : String → Except String String) :
    (∀ e, getTranscript video_id = Except.error e →
       get_transcript_and_language video_id getTranscript detect_language =
         ("Video Error", "unknown")) ∧
    (∀ caps e, video_id ≠ "" → getTranscript video_id = Except.ok caps →
       detect_language (fullTranscript caps) = Except.error e →
       get_transcript_and_language video_id getTranscript detect_language =
         (fullTranscript caps, "unknown")) := by
  constructor
  · intro e he
    by_cases hid : video_id = ""
    · simp [get_transcript_and_language, hid]
    · simp [get_transcript_and_language, hid, he]
  · intro caps e hid hok hdet
    simp [get_transcript_and_language, hid, hok, hdet]

/-- Witness for C2 at concrete inputs: a service that raises gives the
sentinel; a service that succeeds with a failing detector gives the
transcript with `"unknown"`. -/
theorem transcript_failure_sentinel_witness :
    get_transcript_and_language ("v1")
        (fun _ => Except.error ("no captions")) (fun _ => Except.ok ("en")) =
      ("Video Error", "unknown") ∧
    get_transcript_and_language ("v1")
        (fun _ => Except.ok [⟨"hello"⟩, ⟨"world"⟩])
        (fun _ => Except.error ("detect failed")) =
      (fullTranscript [⟨"hello"⟩, ⟨"world"⟩], "unknown") := by
  constructor
  · exact (transcript_failure_sentinel ("v1")
      (fun _ => Except.error ("no captions")) (fun _ => Except.ok ("en"))).1
      ("no captions") rfl
  · exact (transcript_failure_sentinel ("v1")
      (fun _ => Except.ok [⟨"hello"⟩, ⟨"world"⟩])
      (fun _ => Except.error ("detect failed"))).2
      [⟨"hello"⟩, ⟨"world"⟩] ("detect failed") (by decide) rfl rfl

/-- C10: for the empty (falsy) video identifier the fetcher returns the
sentinel pair immediately; the result does not depend on the transcript
service or the language detector, reflecting that no transcript request is
issued and no detection attempted (lines 160-161). -/
theorem empty_video_id_sentinel
    (getTranscript : String → Except String (List CaptionItem))
    (detect_language : String → Except String String) :
    get_transcript_and_language ("") getTranscript detect_language =
      ("Video Error", "unknown") := by
  simp [get_transcript_and_language]

/-- The `statistics` object of one item of a `videos().list` response; each
count is absent when the API omits it (`statistics.get('viewCount')` etc.,
lines 206-208 and 249-251). -/
structure Statistics where
  viewCount : Option String
  likeCount : Option String
  commentCount : Option String
  deriving Repr, DecidableEq

/-- One item of a `videos().list` response: its `id` (line 191) and its
optional `statistics` object (`details.get('statistics', {})`, line 198). -/
structure VideoDetails where
  id : String
  statistics : Option Statistics
  deriving Repr, DecidableEq

/-- Outcome of one `videos().list` batch request (lines 93-97): the response
items, or a raised `HttpError` with its status code (lines 102-106).
Exceptions other than `HttpError` are not caught by `fetch_video_details`
and are outside this model. -/
inductive BatchOutcome where
  | items (its : List VideoDetails)
  | httpError (status : Nat)
  deriving Repr, DecidableEq

/-- A successful batch response. -/
def BatchOutcome.isOk : BatchOutcome → Bool
  | BatchOutcome.items _ => true
  | BatchOutcome.httpError _ => false

/-- A quota-exceeded signal: an `HttpError` whose status is 403
(`e.resp.status == 403`, line 104). -/
def BatchOutcome.isQuota : BatchOutcome → Bool
  | BatchOutcome.items _ => false
  | BatchOutcome.httpError status => status == 403

/-- The items contributed by a batch outcome: a failed batch contributes
nothing to `results`. -/
def BatchOutcome.itemsOf : BatchOutcome → List VideoDetails
  | BatchOutcome.items its => its
  | BatchOutcome.httpError _ => []

/-- The successive slices `video_ids[i:i+B]` for `i = 0, B, 2B, ...` — the
batches the loop of `fetch_video_details` walks through.  The head slice of
the remaining suffix `x :: xs` is `x :: xs.take (B - 1)` (Python requires a
positive step, so B ≥ 1).  The `fuel` argument makes the recursion
structural; it never runs out when it starts at the length of the list,
since every step consumes at least one element. -/
def chunksGo (B : Nat) : Nat → List String → List (List String)
  | _, [] => []
  | 0, _ :: _ => []
  | Nat.succ fuel, x :: xs =>
    (x :: xs.take (B - 1)) :: chunksGo B fuel (xs.drop (B - 1))

/-- The batches of `video_ids` under batch size `B`. -/
def chunksOf (B : Nat) (l : List String) : List (List String) :=
  chunksGo B l.length l

/-- The batch loop of `fetch_video_details` (lines 88-107):
`for i in range(0, len(video_ids), CONFIG['batch_size'])` issues one request
per slice `video_ids[i:i+batch_size]`.  We recurse over the remaining suffix
exactly as in `chunksGo`.  The first component collects the batch requests
issued, in order; the second accumulates `response.get('items', [])`
(line 98).  On an `HttpError` with status 403 the loop breaks (lines
102-106); on any other `HttpError` it logs and continues with the next
batch. -/
def fetchBatchesGo (respond : List String → BatchOutcome) (B : Nat) :
    Nat → List String → List (List String) × List VideoDetails
  | _, [] => ([], [])
  | 0, _ :: _ => ([], [])
  | Nat.succ fuel, x :: xs =>
    match respond (x :: xs.take (B - 1)) with
    | BatchOutcome.items its =>
      ((x :: xs.take (B - 1)) :: (fetchBatchesGo respond B fuel (xs.drop (B - 1))).1,
        its ++ (fetchBatchesGo respond B fuel (xs.drop (B - 1))).2)
    | BatchOutcome.httpError status =>
      if status == 403 then ([x :: xs.take (B - 1)], [])
      else
        ((x :: xs.take (B - 1)) :: (fetchBatchesGo respond B fuel (xs.drop (B - 1))).1,
          (fetchBatchesGo respond B fuel (xs.drop (B - 1))).2)

/-- `fetch_video_details` (lines 83-107): returns nothing for an empty id
list (lines 85-86), otherwise runs the batch loop.  The first component is
the sequence of batch requests issued, the second the accumulated response
items. -/
def fetch_video_details (respond : List String → BatchOutcome) (B : Nat)
    (video_ids : List String) : List (List String) × List VideoDetails :=
  if video_ids.isEmpty then ([], [])
  else fetchBatchesGo respond B video_ids.length video_ids

theorem chunksGo_flatten (B : Nat) :
    ∀ (fuel : Nat) (l : List String), l.length ≤ fuel →
      (chunksGo B fuel l).flatten = l := by
  intro fuel
  induction fuel with
  | zero =>
    intro l hl
    cases l with
    | nil => rfl
    | cons x xs => simp at hl
  | succ fuel ih =>
    intro l hl
    cases l with
    | nil => rfl
    | cons x xs =>
      have hrest : (xs.drop (B - 1)).length ≤ fuel := by
        rw [List.length_drop]
        simp only [List.length_cons] at hl
        omega
      simp only [chunksGo, List.flatten_cons]
      rw [ih _ hrest, List.cons_append, List.take_append_drop]

theorem chunksGo_length (B : Nat) (hB : 0 < B) :
    ∀ (fuel : Nat) (l : List String), l.length ≤ fuel →
      (chunksGo B fuel l).length = (l.length + B - 1) / B := by
  intro fuel
  induction fuel with
  | zero =>
    intro l hl
    cases l with
    | nil =>
      simp only [chunksGo, List.length_nil]
      exact (Nat.div_eq_of_lt (by omega)).symm
    | cons x xs => simp at hl
  | succ fuel ih =>
    intro l hl
    cases l with
    | nil =>
      simp only [chunksGo, List.length_nil]
      exact (Nat.div_eq_of_lt (by omega)).symm
    | cons x xs =>
      simp only [List.length_cons] at hl
      have hrest : (xs.drop (B - 1)).length ≤ fuel := by
        rw [List.length_drop]; omega
      simp only [chunksGo, List.length_cons]
      rw [ih _ hrest, List.length_drop]
      rcases le_or_lt xs.length (B - 1) with hle | hlt
      · have h1 : xs.length - (B - 1) = 0 := by omega
        have h2 : (0 + B - 1) / B = 0 := Nat.div_eq_of_lt (by omega)
        have h3 : xs.length + 1 + B - 1 = xs.length + B := by omega
        have h4 : xs.length / B = 0 := Nat.div_eq_of_lt (by omega)
        rw [h1, h2, h3, Nat.add_div_right _ hB, h4]
      · have h1 : xs.length - (B - 1) + B - 1 = xs.length := by omega
        have h3 : xs.length + 1 + B - 1 = xs.length + B := by omega
        rw [h1, h3, Nat.add_div_right _ hB]

theorem chunksGo_size (B : Nat) (hB : 0 < B) :
    ∀ (fuel : Nat) (l : List String), l.length ≤ fuel →
      ∀ r ∈ chunksGo B fuel l, r.length ≤ B := by
  intro fuel
  induction fuel with
  | zero =>
    intro l hl r hr
    cases l with
    | nil => simp [chunksGo] at hr
    | cons x xs => simp at hl
  | succ fuel ih =>
    intro l hl r hr
    cases l with
    | nil => simp [chunksGo] at hr
    | cons x xs =>
      simp only [List.length_cons] at hl
      simp only [chunksGo, List.mem_cons] at hr
      rcases hr with h | h
      · subst h
        simp only [List.length_cons, List.length_take]
        omega
      · exact ih _ (by rw [List.length_drop]; omega) r h

theorem fetchBatchesGo_requests_ok (respond : List String → BatchOutcome)
    (B : Nat) (hok : ∀ b, (respond b).isOk = true) :
    ∀ (fuel : Nat) (l : List String),
      (fetchBatchesGo respond B fuel l).1 = chunksGo B fuel l := by
  intro fuel
  induction fuel with
  | zero => intro l; cases l <;> rfl
  | succ fuel ih =>
    intro l
    cases l with
    | nil => rfl
    | cons x xs =>
      have h := hok (x :: xs.take (B - 1))
      cases hr : respond (x :: xs.take (B - 1)) with
      | items its => simp [fetchBatchesGo, chunksGo, hr, ih]
      | httpError s => rw [hr] at h; simp [BatchOutcome.isOk] at h

/-- C3: absent any error (every batch request succeeds), the statistics
fetcher issues exactly ⌈N/B⌉ batch requests for N ids with batch size B,
each request carries at most B ids, and the requests partition the input
ids into consecutive batches in input order. -/
theorem stats_batching (respond : List String → BatchOutcome) (B : Nat)
    (video_ids : List String) (hB : 0 < B) (hne : video_ids ≠ [])
    (hok : ∀ b, (respond b).isOk = true) :
    (fetch_video_details respond B video_ids).1.length =
      (video_ids.length + B - 1) / B ∧
    (∀ r ∈ (fetch_video_details respond B video_ids).1, r.length ≤ B) ∧
    ((fetch_video_details respond B video_ids).1).flatten = video_ids := by
  have hempty : video_ids.isEmpty = false := by
    cases video_ids with
    | nil => exact absurd rfl hne
    | cons x xs => rfl
  have hreq : (fetch_video_details respond B video_ids).1 =
      chunksGo B video_ids.length video_ids := by
    simp only [fetch_video_details, hempty, Bool.false_eq_true, if_false]
    exact fetchBatchesGo_requests_ok respond B hok video_ids.length video_ids
  refine ⟨?_, ?_, ?_⟩
  · rw [hreq]; exact chunksGo_length B hB video_ids.length video_ids le_rfl
  · rw [hreq]; exact chunksGo_size B hB video_ids.length video_ids le_rfl
  · rw [hreq]; exact chunksGo_flatten B video_ids.length video_ids le_rfl

/-- Witness for C3: three ids with batch size 2 yield two requests, of sizes
2 and 1, that concatenate back to the input. -/
theorem stats_batching_witness :
    (fetch_video_details (fun _ => BatchOutcome.items []) 2 ["a", "b", "c"]).1.length =
      (3 + 2 - 1) / 2 ∧
    (∀ r ∈ (fetch_video_details (fun _ => BatchOutcome.items []) 2 ["a", "b", "c"]).1,
      r.length ≤ 2) ∧
    ((fetch_video_details (fun _ => BatchOutcome.items []) 2 ["a", "b", "c"]).1).flatten =
      ["a", "b", "c"] := by
  exact stats_batching (fun _ => BatchOutcome.items []) 2 ["a", "b", "c"]
    (by decide) (by decide) (fun b => rfl)

theorem fetchBatchesGo_quota (respond : List String → BatchOutcome) (B : Nat)
    (qb : List String) (post : List (List String))
    (hq : (respond qb).isQuota = true) :
    ∀ (pre : List (List String)) (fuel : Nat) (l : List String),
      chunksGo B fuel l = pre ++ qb :: post →
      (∀ b ∈ pre, (respond b).isQuota = false) →
      fetchBatchesGo respond B fuel l =
        (pre ++ [qb], (pre.map (fun b => (respond b).itemsOf)).flatten) := by
  intro pre
  induction pre with
  | nil =>
    intro fuel l hchunks hpre
    cases fuel with
    | zero => cases l <;> simp [chunksGo] at hchunks
    | succ fuel =>
      cases l with
      | nil => simp [chunksGo] at hchunks
      | cons x xs =>
        simp only [chunksGo, List.nil_append] at hchunks
        injection hchunks with h1 h2
        cases hr : respond qb with
        | items its => rw [hr] at hq; simp [BatchOutcome.isQuota] at hq
        | httpError s =>
          have hs : (s == 403) = true := by
            rw [hr] at hq; simpa [BatchOutcome.isQuota] using hq
          simp [fetchBatchesGo, h1, hr, hs]
  | cons b pre ih =>
    intro fuel l hchunks hpre
    cases fuel with
    | zero => cases l <;> simp [chunksGo] at hchunks
    | succ fuel =>
      cases l with
      | nil => simp [chunksGo] at hchunks
      | cons x xs =>
        simp only [chunksGo, List.cons_append] at hchunks
        injection hchunks with h1 h2
        have hb := hpre b (List.mem_cons_self b pre)
        have hpre' : ∀ b' ∈ pre, (respond b').isQuota = false :=
          fun b' hb' => hpre b' (List.mem_cons_of_mem b hb')
        have hrec := ih fuel (xs.drop (B - 1)) h2 hpre'
        cases hr : respond b with
        | items its =>
          simp [fetchBatchesGo, h1, hr, hrec, BatchOutcome.itemsOf]
        | httpError s =>
          have hs : (s == 403) = false := by
            rw [hr] at hb; simpa [BatchOutcome.isQuota] using hb
          simp [fetchBatchesGo, h1, hr, hrec, hs, BatchOutcome.itemsOf]

/-- C4: if the batches decompose as `pre ++ qb :: post` where no batch of
`pre` signals quota exhaustion and batch `qb` does, then the fetcher issues
exactly the requests `pre ++ [qb]` — nothing after the failing batch is ever
requested — and returns the items collected from the batches before the
failing one, as a partial result rather than an error. -/
theorem stats_quota_stops (respond : List String → BatchOutcome) (B : Nat)
    (video_ids : List String) (pre post : List (List String)) (qb : List String)
    (hchunks : chunksOf B video_ids = pre ++ qb :: post)
    (hpre : ∀ b ∈ pre, (respond b).isQuota = false)
    (hq : (respond qb).isQuota = true) :
    (fetch_video_details respond B video_ids).1 = pre ++ [qb] ∧
    (fetch_video_details respond B video_ids).2 =
      (pre.map (fun b => (respond b).itemsOf)).flatten := by
  have hempty : video_ids.isEmpty = false := by
    cases video_ids with
    | nil => simp [chunksOf, chunksGo] at hchunks
    | cons x xs => rfl
  have h := fetchBatchesGo_quota respond B qb post hq pre
    video_ids.length video_ids hchunks hpre
  constructor <;>
    simp [fetch_video_details, hempty, Bool.false_eq_true, if_false, h]

def wDetailA : VideoDetails := ⟨"a", none⟩

/-- A statistics endpoint that answers batch `["a"]` with one item, batch
`["b"]` with a quota-exceeded error, and anything else with an item. -/
def wQuotaRespond : List String → BatchOutcome := fun b =>
  if b == ["a"] then BatchOutcome.items [wDetailA]
  else if b == ["b"] then BatchOutcome.httpError 403
  else BatchOutcome.items [⟨"c", none⟩]

/-- Witness for C4: with batch size 1 and ids a, b, c, a quota failure on the
second of three batches yields only batch 1's details and batch 3 is never
requested. -/
theorem stats_quota_stops_witness :
    (fetch_video_details wQuotaRespond 1 ["a", "b", "c"]).1 = [["a"], ["b"]] ∧
    (fetch_video_details wQuotaRespond 1 ["a", "b", "c"]).2 = [wDetailA] := by
  have h := stats_quota_stops wQuotaRespond 1 ["a", "b", "c"] [["a"]] [["c"]] ["b"]
    (by decide) (by decide) (by decide)
  exact ⟨h.1, h.2⟩

/-- One row of the output table — the Video Record schema created by
`load_existing_data` (lines 65-69), in column order.  `none` models a
missing (NaN) cell; the count fields hold the raw API strings. -/
structure Row where
  video_id : String
  title : String
  description : String
  published_at : String
  view_count : Option String
  like_count : Option String
  comment_count : Option String
  video_url : String
  region : String
  transcription : Option String
  detected_language : Option String
  deriving Repr, DecidableEq

/-- The backup path `f"{csv_file}.backup.{int(time.time())}.csv"` (line 79). -/
def backupPath (csv_file : String) (timestamp : Nat) : String :=
  csv_file ++ (".backup.") ++ toString timestamp ++ (".csv")

/-- Result of a completed `save_data` call: the path written and whether it
was the backup path. -/
structure SaveOutcome where
  savedPath : String
  usedBackup : Bool
  deriving Repr, DecidableEq

/-- `save_data` (lines 71-81).  `write_ok` models whether `df.to_csv`
succeeds at a given path; the table content plays no role in control flow.
The write to `csv_file` is guarded by `try`/`except` (lines 73-77); on its
failure the code writes to the backup path (line 80) — but that second
`to_csv` call is not inside any handler, so its failure is a raised
exception, modelled by `Except.error`. -/
def save_data (df : List Row) (write_ok : String → Bool) (csv_file : String)
    (timestamp : Nat) : Except Unit SaveOutcome :=
  if write_ok csv_file then Except.ok ⟨csv_file, false⟩
  else if write_ok (backupPath csv_file timestamp) then
    Except.ok ⟨backupPath csv_file timestamp, true⟩
  else Except.error ()

/-- Counterexample to C5 as stated: on a filesystem where every write fails,
`save_data` raises — the unguarded backup write propagates its exception —
so save does not report success in every case. -/
theorem save_data_never_raises_counterexample :
    save_data [] (fun _ => false) ("data/scrapped_data.csv") 0 =
      Except.error () := rfl

/-- C5 (amended): if writing the table to the configured path fails,
`save_data` writes it to the timestamp-suffixed backup path instead and
reports success — provided the backup write itself succeeds; the backup
write is unguarded, so if it also fails the exception propagates to the
caller. -/
theorem save_data_backup_on_failure (df : List Row) (write_ok : String → Bool)
    (csv_file : String) (timestamp : Nat)
    (hfail : write_ok csv_file = false)
    (hbackup : write_ok (backupPath csv_file timestamp) = true) :
    save_data df write_ok csv_file timestamp =
      Except.ok ⟨backupPath csv_file timestamp, true⟩ := by
  simp [save_data, hfail, hbackup]

/-- Witness for the amended C5: a filesystem on which only the backup path is
writable; `save_data` reports success against the backup path. -/
theorem save_data_backup_on_failure_witness :
    save_data [] (fun p => p == ("data/scrapped_data.csv.backup.7.csv"))
        ("data/scrapped_data.csv") 7 =
      Except.ok ⟨"data/scrapped_data.csv.backup.7.csv", true⟩ := by
  have h := save_data_backup_on_failure []
    (fun p => p == ("data/scrapped_data.csv.backup.7.csv"))
    ("data/scrapped_data.csv") 7 (by decide) (by decide)
  have h2 : backupPath ("data/scrapped_data.csv") 7 =
      ("data/scrapped_data.csv.backup.7.csv") := rfl
  rw [h2] at h
  exact h

/-- The in-place cell update `existing_data.at[index, ...] = ...`: apply `f`
to the element at position `i`, every other element unchanged. -/
def listModify (f : Row → Row) : Nat → List Row → List Row
  | _, [] => []
  | 0, r :: rs => f r :: rs
  | n + 1, r :: rs => r :: listModify f n rs

/-- Pandas row enumeration: the rows of a table paired with their integer
index, starting at `n`. -/
def enumRows (n : Nat) : List Row → List (Nat × Row)
  | [] => []
  | r :: rs => (n, r) :: enumRows (n + 1) rs

/-- The selection predicate of `update_missing_transcripts` (lines 263-267):
transcription missing (NaN), the empty string, or the `"Video Error"`
sentinel. -/
def needsTranscript (r : Row) : Bool :=
  r.transcription.isNone || r.transcription == some ("") ||
    r.transcription == some ("Video Error")

/-- The two cell writes of lines 282-283: overwrite `transcription` and
`detected_language`; every other field of the row is untouched. -/
def setTranscriptFields (t lang : String) (r : Row) : Row :=
  { r with transcription := some t, detected_language := some lang }

/-- The loop of `update_missing_transcripts` (lines 277-293): walk the
frozen selection `missing_transcripts` (index/row pairs), fetch a transcript
for each row's `video_id` (line 281), write the two cells back into the
table at the row's index (lines 282-283), and perform a checkpoint save
whenever the running `updated_count` is divisible by 10 (lines 287-290).
Returns the final table and the list of `updated_count` values at which
`save_data` was called, in order. -/
def backfillLoop (fetch : String → String × String) :
    List Row → List (Nat × Row) → Nat → List Row × List Nat
  | data, [], _ => (data, [])
  | data, (i, row) :: rest, updated_count =>
    let d :=
      listModify (setTranscriptFields (fetch row.video_id).1 (fetch row.video_id).2)
        i data
    let p := backfillLoop fetch d rest (updated_count + 1)
    if (updated_count + 1) % 10 == 0 then (p.1, (updated_count + 1) :: p.2)
    else (p.1, p.2)

/-- `update_missing_transcripts` (lines 257-296): an empty table is returned
unchanged (lines 259-260); otherwise the rows whose transcription is
missing, empty, or the error sentinel are selected together with their
indices (lines 263-267); if there are none the table is returned unchanged
(lines 269-271); otherwise the loop runs over the frozen selection.  The
transcript fetcher (`get_transcript_and_language`, line 281) is a
parameter.  Returns the updated table and the checkpoint-save counts. -/
def update_missing_transcripts (fetch : String → String × String)
    (existing_data : List Row) : List Row × List Nat :=
  if existing_data.isEmpty then (existing_data, [])
  else
    let missing := (enumRows 0 existing_data).filter (fun p => needsTranscript p.2)
    if missing.isEmpty then (existing_data, [])
    else backfillLoop fetch existing_data missing 0

/-- The row the backfill produces for an input row: the two transcript cells
overwritten when the row is selected, the row untouched otherwise. -/
def transcriptUpdatedRow (fetch : String → String × String) (r : Row) : Row :=
  if needsTranscript r then
    setTranscriptFields (fetch r.video_id).1 (fetch r.video_id).2 r
  else r

/-- The backfill phase of `main` (lines 314-316): the checkpoint saves made
inside `update_missing_transcripts` plus the unconditional `save_data`
immediately after it — the total number of `save_data` calls of the phase. -/
def backfillPhaseSaveCount (fetch : String → String × String)
    (existing_data : List Row) : Nat :=
  (update_missing_transcripts fetch existing_data).2.length + 1

theorem isEmpty_eq_nil {α : Type _} {l : List α} (h : l.isEmpty = true) :
    l = [] := by
  cases l with
  | nil => rfl
  | cons x xs => simp [List.isEmpty_cons] at h

theorem mem_enumRows (r : Row) :
    ∀ (l : List Row) (n : Nat), r ∈ l → ∃ i, (i, r) ∈ enumRows n l := by
  intro l
  induction l with
  | nil => intro n h; cases h
  | cons x xs ih =>
    intro n h
    rcases List.mem_cons.mp h with h | h
    · exact ⟨n, by rw [h]; exact List.mem_cons_self _ _⟩
    · rcases ih (n + 1) h with ⟨i, hi⟩
      exact ⟨i, List.mem_cons_of_mem _ hi⟩

theorem map_transcriptUpdatedRow_id (fetch : String → String × String) :
    ∀ (l : List Row), (∀ r ∈ l, needsTranscript r = false) →
      l.map (transcriptUpdatedRow fetch) = l := by
  intro l
  induction l with
  | nil => intro _; rfl
  | cons x xs ih =>
    intro h
    simp only [List.map_cons]
    rw [ih (fun r hr => h r (List.mem_cons_of_mem x hr))]
    have hx := h x (List.mem_cons_self x xs)
    simp [transcriptUpdatedRow, hx]

theorem listModify_at_append (f : Row → Row) :
    ∀ (pre : List Row) (r : Row) (suf : List Row),
      listModify f pre.length (pre ++ r :: suf) = pre ++ f r :: suf := by
  intro pre
  induction pre with
  | nil => intro r suf; rfl
  | cons x xs ih =>
    intro r suf
    show x :: listModify f xs.length (xs ++ r :: suf) = x :: (xs ++ f r :: suf)
    rw [ih]

theorem backfillLoop_table (fetch : String → String × String) :
    ∀ (suf pre : List Row) (c : Nat),
      (backfillLoop fetch (pre ++ suf)
        ((enumRows pre.length suf).filter (fun p => needsTranscript p.2)) c).1 =
      pre ++ suf.map (transcriptUpdatedRow fetch) := by
  intro suf
  induction suf with
  | nil => intro pre c; simp [enumRows, backfillLoop]
  | cons r rs ih =>
    intro pre c
    have hsel : (enumRows pre.length (r :: rs)).filter (fun p => needsTranscript p.2) =
        if needsTranscript r then
          (pre.length, r) ::
            (enumRows (pre.length + 1) rs).filter (fun p => needsTranscript p.2)
        else (enumRows (pre.length + 1) rs).filter (fun p => needsTranscript p.2) := by
      simp [enumRows, List.filter_cons]
    cases h : needsTranscript r with
    | false =>
      rw [hsel, if_neg (by simp [h])]
      have hthis := ih (pre ++ [r]) c
      have hlen : (pre ++ [r]).length = pre.length + 1 := by simp
      rw [hlen, List.append_assoc, List.append_assoc] at hthis
      simp only [List.singleton_append] at hthis
      rw [List.map_cons]
      have hfr : transcriptUpdatedRow fetch r = r := by
        simp [transcriptUpdatedRow, h]
      rw [hfr]
      exact hthis
    | true =>
      rw [hsel, if_pos (by rw [h])]
      simp only [backfillLoop]
      rw [listModify_at_append]
      rw [apply_ite Prod.fst, ite_self]
      have hthis := ih
        (pre ++ [setTranscriptFields (fetch r.video_id).1 (fetch r.video_id).2 r])
        (c + 1)
      have hlen :
          (pre ++ [setTranscriptFields (fetch r.video_id).1 (fetch r.video_id).2 r]).length =
            pre.length + 1 := by simp
      rw [hlen, List.append_assoc, List.append_assoc] at hthis
      simp only [List.singleton_append] at hthis
      rw [List.map_cons]
      have hfr : transcriptUpdatedRow fetch r =
          setTranscriptFields (fetch r.video_id).1 (fetch r.video_id).2 r := by
        simp [transcriptUpdatedRow, h]
      rw [hfr]
      exact hthis

/-- C6: the backfill overwrites exactly the transcript cells of exactly the
selected rows — a row is selected iff its transcription is missing, empty,
or `"Video Error"` — and every other row, and every other field of a
selected row, is left unchanged. -/
theorem backfill_frame_effect (fetch : String → String × String)
    (existing_data : List Row) :
    (update_missing_transcripts fetch existing_data).1 =
      existing_data.map (transcriptUpdatedRow fetch) ∧
    (∀ i r r', existing_data.get? i = some r →
      ((update_missing_transcripts fetch existing_data).1).get? i = some r' →
      (needsTranscript r = false → r' = r) ∧
      (needsTranscript r = true →
        r'.transcription = some (fetch r.video_id).1 ∧
        r'.detected_language = some (fetch r.video_id).2 ∧
        r'.video_id = r.video_id ∧ r'.title = r.title ∧
        r'.description = r.description ∧ r'.published_at = r.published_at ∧
        r'.view_count = r.view_count ∧ r'.like_count = r.like_count ∧
        r'.comment_count = r.comment_count ∧ r'.video_url = r.video_url ∧
        r'.region = r.region)) := by
  have hmain : (update_missing_transcripts fetch existing_data).1 =
      existing_data.map (transcriptUpdatedRow fetch) := by
    unfold update_missing_transcripts
    cases existing_data with
    | nil => rfl
    | cons x xs =>
      rw [if_neg (by simp)]
      by_cases hm :
          ((enumRows 0 (x :: xs)).filter (fun p => needsTranscript p.2)).isEmpty = true
      · rw [if_pos hm]
        have h0 := isEmpty_eq_nil hm
        have hall : ∀ r ∈ (x :: xs), needsTranscript r = false := by
          intro r hr
          rcases mem_enumRows r (x :: xs) 0 hr with ⟨i, hi⟩
          have hmem := List.filter_eq_nil_iff.mp h0 (i, r) hi
          simpa using hmem
        exact (map_transcriptUpdatedRow_id fetch (x :: xs) hall).symm
      · rw [if_neg hm]
        have := backfillLoop_table fetch (x :: xs) [] 0
        simpa using this
  refine ⟨hmain, ?_⟩
  intro i r r' hr hr'
  rw [hmain, List.get?_map, hr] at hr'
  simp only [Option.map_some', Option.some.injEq] at hr'
  subst hr'
  constructor
  · intro h; simp [transcriptUpdatedRow, h]
  · intro h; simp [transcriptUpdatedRow, setTranscriptFields, h]

def wFetch : String → String × String := fun _ => ("T", "en")

def wRow1 : Row :=
  { video_id := "v1", title := "t1", description := "d1", published_at := "p1",
    view_count := some ("5"), like_count := none, comment_count := none,
    video_url := "u1", region := "US", transcription := none,
    detected_language := none }

def wRow2 : Row :=
  { video_id := "v2", title := "t2", description := "d2", published_at := "p2",
    view_count := none, like_count := none, comment_count := none,
    video_url := "u2", region := "", transcription := some ("done"),
    detected_language := some ("en") }

def wBackfillOut1 : Row :=
  (((update_missing_transcripts wFetch [wRow1, wRow2]).1).get? 0).getD wRow1

def wBackfillOut2 : Row :=
  (((update_missing_transcripts wFetch [wRow1, wRow2]).1).get? 1).getD wRow1

/-- Witness for C6: over a two-row table where only the first row lacks a
transcription, the second row is returned unchanged, and the first gets the
fetched transcription while keeping its other fields. -/
theorem backfill_frame_effect_witness :
    wBackfillOut2 = wRow2 ∧
    wBackfillOut1.transcription = some ("T") ∧
    wBackfillOut1.view_count = wRow1.view_count := by
  have h := backfill_frame_effect wFetch [wRow1, wRow2]
  have h1 := h.2 0 wRow1 wBackfillOut1 rfl rfl
  have h2 := h.2 1 wRow2 wBackfillOut2 rfl rfl
  refine ⟨h2.1 (by decide), (h1.2 (by decide)).1, ?_⟩
  exact (h1.2 (by decide)).2.2.2.2.2.2.1

theorem backfillLoop_saves (fetch : String → String × String) :
    ∀ (sel : List (Nat × Row)) (data : List Row) (c : Nat),
      (backfillLoop fetch data sel c).2 =
        ((List.range sel.length).map (fun j => c + j + 1)).filter
          (fun m => m % 10 == 0) := by
  intro sel
  induction sel with
  | nil => intro data c; rfl
  | cons p rest ih =>
    intro data c
    obtain ⟨i, row⟩ := p
    simp only [backfillLoop]
    rw [apply_ite Prod.snd]
    simp only
    rw [ih _ (c + 1)]
    rw [List.length_cons, List.range_succ_eq_map]
    simp only [List.map_cons, List.map_map]
    have hfun : ((fun j => c + j + 1) ∘ Nat.succ) = fun j : Nat => c + 1 + j + 1 := by
      funext j
      simp only [Function.comp_apply, Nat.succ_eq_add_one]
      omega
    rw [hfun, List.filter_cons]

theorem enumRows_filter_length :
    ∀ (l : List Row) (n : Nat),
      ((enumRows n l).filter (fun p => needsTranscript p.2)).length =
        (l.filter needsTranscript).length := by
  intro l
  induction l with
  | nil => intro n; rfl
  | cons x xs ih =>
    intro n
    cases h : needsTranscript x <;>
      simp [enumRows, List.filter_cons, h, ih (n + 1)]

/-- C7: during the backfill a checkpoint save happens exactly after every
10th processed row — the recorded save points are precisely the multiples of
10 among 1..M, where M is the number of selected rows — and the phase of
`main` (lines 314-316) performs one final save after it; for M = 25 the
checkpoints are rows 10 and 20 and the phase performs three saves in
total. -/
theorem backfill_checkpoint_saves (fetch : String → String × String)
    (existing_data : List Row) :
    (update_missing_transcripts fetch existing_data).2 =
      ((List.range ((existing_data.filter needsTranscript).length)).map
        (fun j => j + 1)).filter (fun m => m % 10 == 0) ∧
    ((existing_data.filter needsTranscript).length = 25 →
      (update_missing_transcripts fetch existing_data).2 = [10, 20] ∧
      backfillPhaseSaveCount fetch existing_data = 3) := by
  have hmain : (update_missing_transcripts fetch existing_data).2 =
      ((List.range ((existing_data.filter needsTranscript).length)).map
        (fun j => j + 1)).filter (fun m => m % 10 == 0) := by
    unfold update_missing_transcripts
    cases existing_data with
    | nil => rfl
    | cons x xs =>
      rw [if_neg (by simp)]
      by_cases hm :
          ((enumRows 0 (x :: xs)).filter (fun p => needsTranscript p.2)).isEmpty = true
      · rw [if_pos hm]
        have h0 := isEmpty_eq_nil hm
        have hlen := enumRows_filter_length (x :: xs) 0
        rw [h0] at hlen
        simp only [List.length_nil] at hlen
        rw [← hlen]
        rfl
      · rw [if_neg hm]
        rw [backfillLoop_saves fetch
          ((enumRows 0 (x :: xs)).filter (fun p => needsTranscript p.2)) (x :: xs) 0]
        rw [enumRows_filter_length (x :: xs) 0]
        have hfun : (fun j => 0 + j + 1) = fun j : Nat => j + 1 := by
          funext j; omega
        rw [hfun]
  refine ⟨hmain, ?_⟩
  intro h25
  have h2 : (update_missing_transcripts fetch existing_data).2 = [10, 20] := by
    rw [hmain, h25]
    decide
  refine ⟨h2, ?_⟩
  unfold backfillPhaseSaveCount
  rw [h2]
  rfl

def wRowBase : Row :=
  { video_id := "v", title := "t", description := "d", published_at := "p",
    view_count := none, like_count := none, comment_count := none,
    video_url := "u", region := "", transcription := none,
    detected_language := none }

def w25 : List Row :=
  (List.range 25).map (fun i => { wRowBase with video_id := toString i })

/-- Witness for C7: a 25-row table all of whose rows lack a transcription
yields checkpoint saves after rows 10 and 20, and three saves in total for
the phase. -/
theorem backfill_checkpoint_saves_witness :
    (update_missing_transcripts wFetch w25).2 = [10, 20] ∧
    backfillPhaseSaveCount wFetch w25 = 3 := by
  exact (backfill_checkpoint_saves wFetch w25).2 (by decide)

/-- The dict `{v['id']: v for v in detailed_videos}` (line 191) as a lookup:
for a duplicated id the last occurrence wins, as in a Python dict
comprehension. -/
def detailsLookup (detailedVideos : List VideoDetails) (video_id : String) :
    Option VideoDetails :=
  (detailedVideos.reverse).find? (fun v => v.id == video_id)

/-- The record assembled for one search entry (lines 196-225): the basic
info (lines 201-213), with the statistics fields read through the
`.get(..., {})` chains — an id absent from the details mapping, or a details
item without a statistics object, yields `None` — and, when transcripts are
enabled, the two transcript cells overwritten from the fetcher
(lines 216-223). -/
def buildRecord (detailedVideos : List VideoDetails)
    (fetch : String → String × String) (include_transcripts : Bool)
    (video : SearchEntry) : Row :=
  let statistics :=
    (detailsLookup detailedVideos video.videoId).bind VideoDetails.statistics
  let record : Row :=
    { video_id := video.videoId
      title := video.title
      description := video.description
      published_at := video.publishedAt
      view_count := statistics.bind Statistics.viewCount
      like_count := statistics.bind Statistics.likeCount
      comment_count := statistics.bind Statistics.commentCount
      video_url := ("https://www.youtube.com/watch?v=") ++ video.videoId
      region := (video.regionCode).getD ("")
      transcription := some ("")
      detected_language := some ("") }
  if include_transcripts then
    { record with
        transcription := some (fetch video.videoId).1
        detected_language := some (fetch video.videoId).2 }
  else record

/-- `process_videos` (lines 179-227): nothing for an empty search result
(lines 181-182); otherwise fetch details for all extracted ids
(lines 185-188) and assemble one record per search entry, in input order. -/
def process_videos (respond : List String → BatchOutcome) (B : Nat)
    (fetch : String → String × String) (search_results : List SearchEntry)
    (include_transcripts : Bool) : List Row :=
  if search_results.isEmpty then []
  else
    search_results.map
      (buildRecord
        (fetch_video_details respond B (search_results.map SearchEntry.videoId)).2
        fetch include_transcripts)

/-- `update_existing_stats` (lines 229-255): refresh the three count cells
of every row whose id appears in the freshly fetched details; a row without
matching details is untouched. -/
def update_existing_stats (respond : List String → BatchOutcome) (B : Nat)
    (existing_data : List Row) : List Row :=
  if existing_data.isEmpty then existing_data
  else
    let detailedVideos :=
      (fetch_video_details respond B (existing_data.map Row.video_id)).2
    existing_data.map (fun row =>
      match detailsLookup detailedVideos row.video_id with
      | some d =>
        { row with
            view_count := (d.statistics).bind Statistics.viewCount
            like_count := (d.statistics).bind Statistics.likeCount
            comment_count := (d.statistics).bind Statistics.commentCount }
      | none => row)

/-- The three feature toggles of `CONFIG` read by `main` (lines 38-40):
`update_existing`, `fetch_transcripts`, `update_transcripts`.  The committed
values are false, true, false. -/
structure Config where
  update_existing : Bool
  fetch_transcripts : Bool
  update_transcripts : Bool
  deriving Repr, DecidableEq

/-- The happy path of `main` (lines 298-342): load the table and derive the
known-id set (line 305); optionally refresh stats and save (lines 309-311);
optionally backfill transcripts and save (lines 314-316); search (line 320);
return the loaded table when nothing new was found (lines 322-324);
otherwise assemble the new records, append them and save (lines 328-336).
Returns the resulting table and the number of `save_data` calls
performed. -/
def mainRun (cfg : Config) (respond : List String → BatchOutcome) (B : Nat)
    (fetch : String → String × String) (responses : List SearchResponse)
    (existing_data : List Row) : List Row × Nat :=
  let existing_video_ids := existing_data.map Row.video_id
  let d1 := if cfg.update_existing && !existing_data.isEmpty
    then update_existing_stats respond B existing_data else existing_data
  let s1 := if cfg.update_existing && !existing_data.isEmpty then 1 else 0
  let d2 := if cfg.update_transcripts && !d1.isEmpty
    then (update_missing_transcripts fetch d1).1 else d1
  let s2 := if cfg.update_transcripts && !d1.isEmpty
    then (update_missing_transcripts fetch d1).2.length + 1 else 0
  let search_results := search_youtube_videos existing_video_ids responses
  if search_results.isEmpty then (d2, s1 + s2)
  else
    let video_records :=
      process_videos respond B fetch search_results cfg.fetch_transcripts
    if video_records.isEmpty then (d2, s1 + s2)
    else (d2 ++ video_records, s1 + s2 + 1)

theorem buildRecord_video_url (detailedVideos : List VideoDetails)
    (fetch : String → String × String) (inc : Bool) (video : SearchEntry) :
    (buildRecord detailedVideos fetch inc video).video_url =
      ("https://www.youtube.com/watch?v=") ++ video.videoId := by
  cases inc <;> simp [buildRecord]

theorem buildRecord_counts_none (detailedVideos : List VideoDetails)
    (fetch : String → String × String) (inc : Bool) (video : SearchEntry)
    (h : detailsLookup detailedVideos video.videoId = none) :
    (buildRecord detailedVideos fetch inc video).view_count = none ∧
    (buildRecord detailedVideos fetch inc video).like_count = none ∧
    (buildRecord detailedVideos fetch inc video).comment_count = none := by
  cases inc <;> simp [buildRecord, h]

def scenarioEntry (s : String) : SearchEntry := ⟨s, "t", "d", "p", none⟩

/-- Two search pages of 50 and 3 entries with pairwise distinct ids, the
first carrying a continuation token, the second not. -/
def scenarioResponses : List SearchResponse :=
  [SearchResponse.page
      ((List.range 50).map (fun i => scenarioEntry (("a") ++ toString i)))
      (some ("tok")),
   SearchResponse.page
      ((List.range 3).map (fun i => scenarioEntry (("b") ++ toString i)))
      none]

/-- The committed `CONFIG` toggles (lines 38-40). -/
def scenarioCfg : Config := ⟨false, true, false⟩

/-- A statistics endpoint whose responses carry no items. -/
def scenarioRespond : List String → BatchOutcome := fun _ => BatchOutcome.items []

/-- The pipeline over an empty table with the two scenario pages. -/
def scenarioRun : List Row × Nat :=
  mainRun scenarioCfg scenarioRespond 50 wFetch scenarioResponses []

/-- C8: every assembled record's `video_url` is exactly the watch-URL prefix
followed by the entry's identifier, and its three count fields are null
whenever the entry's identifier is absent from the details mapping; and over
an empty table, a search returning two pages of 50 and 3 non-overlapping
items yields exactly 53 new rows, each with that URL shape. -/
theorem process_videos_records (respond : List String → BatchOutcome) (B : Nat)
    (fetch : String → String × String) (search_results : List SearchEntry)
    (inc : Bool) :
    (process_videos respond B fetch search_results inc).length =
      search_results.length ∧
    (∀ i entry rec, search_results.get? i = some entry →
      (process_videos respond B fetch search_results inc).get? i = some rec →
      rec.video_url = ("https://www.youtube.com/watch?v=") ++ entry.videoId ∧
      (detailsLookup
          (fetch_video_details respond B (search_results.map SearchEntry.videoId)).2
          entry.videoId = none →
        rec.view_count = none ∧ rec.like_count = none ∧
          rec.comment_count = none)) ∧
    (scenarioRun.1.length = 53 ∧
      ∀ r ∈ scenarioRun.1,
        r.video_url = ("https://www.youtube.com/watch?v=") ++ r.video_id) := by
  refine ⟨?_, ?_, ?_, ?_⟩
  · cases search_results with
    | nil => rfl
    | cons x xs => simp [process_videos]
  · intro i entry rec hent hrec
    cases search_results with
    | nil => simp at hent
    | cons x xs =>
      have hmap : process_videos respond B fetch (x :: xs) inc =
          (x :: xs).map
            (buildRecord
              (fetch_video_details respond B ((x :: xs).map SearchEntry.videoId)).2
              fetch inc) := by
        simp [process_videos]
      rw [hmap, List.get?_map, hent] at hrec
      simp only [Option.map_some', Option.some.injEq] at hrec
      subst hrec
      exact ⟨buildRecord_video_url _ fetch inc entry,
        fun h => buildRecord_counts_none _ fetch inc entry h⟩
  · decide
  · decide

def wEntryX : SearchEntry := ⟨"x", "tx", "dx", "px", none⟩

def wProcOut : Row :=
  ((process_videos scenarioRespond 50 wFetch [wEntryX] true).get? 0).getD wRow1

/-- Witness for C8: a single entry whose id has no details; its record has
the derived URL and null counts. -/
theorem process_videos_records_witness :
    wProcOut.video_url = ("https://www.youtube.com/watch?v=") ++ ("x") ∧
    wProcOut.view_count = none ∧ wProcOut.like_count = none ∧
    wProcOut.comment_count = none := by
  have h := process_videos_records scenarioRespond 50 wFetch [wEntryX] true
  have h2 := h.2.1 0 wEntryX wProcOut rfl rfl
  have h3 := h2.2 rfl
  exact ⟨h2.1, h3.1, h3.2.1, h3.2.2⟩

theorem search_all_known (K : List String) :
    ∀ (responses : List SearchResponse),
      (∀ resp ∈ responses, ∀ v ∈ resp.pageItems, K.contains v.videoId = true) →
      search_youtube_videos K responses = [] := by
  intro responses
  induction responses with
  | nil => intro _; rfl
  | cons r rest ih =>
    intro h
    have hrest := fun resp hresp => h resp (List.mem_cons_of_mem r hresp)
    cases r with
    | page items tok =>
      have hitems : ∀ v ∈ items, K.contains v.videoId = true :=
        h (SearchResponse.page items tok) (List.mem_cons_self _ _)
      have hfilter : items.filter (fun v => !(K.contains v.videoId)) = [] := by
        rw [List.filter_eq_nil_iff]
        intro v hv
        simpa using hitems v hv
      cases tok with
      | none =>
        show items.filter (fun v => !(K.contains v.videoId)) = []
        exact hfilter
      | some t =>
        show items.filter (fun v => !(K.contains v.videoId)) ++
          search_youtube_videos K rest = []
        rw [hfilter, ih hrest]
        rfl
    | quotaError => rfl
    | otherError => simpa [search_youtube_videos] using ih hrest

/-- C9: with the committed configuration (stats refresh and transcript
backfill disabled, as in `CONFIG`), a run whose search returns only videos
already present in the table returns the loaded table unchanged and performs
no save at all — re-running the pipeline when nothing new is found leaves
the persisted table as it was. -/
theorem main_idempotent_when_no_new (cfg : Config)
    (respond : List String → BatchOutcome) (B : Nat)
    (fetch : String → String × String) (responses : List SearchResponse)
    (existing_data : List Row)
    (hUE : cfg.update_existing = false) (hUT : cfg.update_transcripts = false)
    (hknown : ∀ resp ∈ responses, ∀ v ∈ resp.pageItems,
      (existing_data.map Row.video_id).contains v.videoId = true) :
    mainRun cfg respond B fetch responses existing_data = (existing_data, 0) := by
  have hsearch := search_all_known (existing_data.map Row.video_id) responses hknown
  simp [mainRun, hUE, hUT, hsearch]

def wKnownRow : Row := { wRowBase with video_id := "k1" }

/-- Witness for C9: a one-row table and a single search page containing only
that row's id; the run returns the table as loaded, with zero saves. -/
theorem main_idempotent_when_no_new_witness :
    mainRun ⟨false, true, false⟩ scenarioRespond 50 wFetch
        [SearchResponse.page [⟨"k1", "t", "d", "p", none⟩] none] [wKnownRow] =
      ([wKnownRow], 0) := by
  exact main_idempotent_when_no_new ⟨false, true, false⟩ scenarioRespond 50 wFetch
    [SearchResponse.page [⟨"k1", "t", "d", "p", none⟩] none] [wKnownRow]
    rfl rfl (by decide)

end TranscribeVideos
